import Mathlib

/-!
Shallow embedding of `data_downloader/data_client.py` (two near-duplicate
variants: `PriceHistoryNASDAQ` in `code/python/data_downloader/data_client.py`,
`PriceHistory` in `data_downloader/data_client.py`), together with the
`DolarPrices` and `PriceHistoryYF` adapters.

Python dicts become association lists (`Row`), Python scalar values become
`PyVal`, Python exceptions become `Except PyErr`, `datetime.date` becomes
`PyDate` with the Gregorian ordinal (as in CPython's `date.toordinal`), and
the HTTP layer becomes an explicit environment mapping a request
(URL, query parameters) to a response.
-/

/-- Python exception kinds that the embedded code can raise. -/
inductive PyErr where
  | valueError
  | typeError
  | keyError
  deriving DecidableEq, Repr

/-- Values stored in a row (a Python dict): strings from the upstream JSON,
floats and ints produced by cleaning, parsed timestamps produced by
`pd.to_datetime` (tagged with their source string), and pandas NaT for a
missing date cell. -/
inductive PyVal where
  | str (s : String)
  | float (q : ℚ)
  | int (z : ℤ)
  | datetime (s : String)
  | naT
  deriving DecidableEq, Repr

/-- A Python dict as an association list (insertion-ordered, no duplicate
keys arise in the embedded code). -/
abbrev Row := List (String × PyVal)

/-- Python dict assignment `r[k] = v`: update in place if the key exists,
otherwise append at the end (Python dicts preserve insertion order). -/
def dictSet (r : Row) (k : String) (v : PyVal) : Row :=
  match r with
  | [] => [(k, v)]
  | (k', v') :: rest =>
      if k' = k then (k, v) :: rest else (k', v') :: dictSet rest k v

/-- Python dict read `r[k]`: `KeyError` when the key is absent. -/
def dictGet (r : Row) (k : String) : Except PyErr PyVal :=
  match r.lookup k with
  | some v => Except.ok v
  | none => Except.error PyErr.keyError

/-- String methods (`.replace`, `re.sub`) require a string receiver;
anything else raises `TypeError`. -/
def asStr : PyVal → Except PyErr String
  | PyVal.str s => Except.ok s
  | _ => Except.error PyErr.typeError

/-! ## Dates: `datetime.date`, subtraction, `relativedelta(months=n)` -/

/-- A calendar date as in `datetime.date`. -/
structure PyDate where
  year : ℤ
  month : ℕ
  day : ℕ
  deriving DecidableEq, Repr

/-- Whether a year is a Gregorian leap year. -/
def isLeap (y : ℤ) : Bool := y % 4 = 0 && (y % 100 ≠ 0 || y % 400 = 0)

/-- Month lengths for a (non-)leap year. -/
def monthDays (leap : Bool) : List ℕ :=
  [31, if leap then 29 else 28, 31, 30, 31, 30, 31, 31, 30, 31, 30, 31]

/-- Number of days in month `m` of year `y`. -/
def daysInMonth (y : ℤ) (m : ℕ) : ℕ := (monthDays (isLeap y)).getD (m - 1) 0

/-- Days in year `y` before the first day of month `m`. -/
def daysBeforeMonth (y : ℤ) (m : ℕ) : ℕ :=
  (((monthDays (isLeap y)).take (m - 1)).foldl (· + ·) 0)

/-- CPython's `date.toordinal`: day count since 0001-01-01 == ordinal 1. -/
def date_toordinal (d : PyDate) : ℤ :=
  365 * (d.year - 1) + (d.year - 1).fdiv 4 - (d.year - 1).fdiv 100
    + (d.year - 1).fdiv 400 + (daysBeforeMonth d.year d.month : ℤ) + (d.day : ℤ)

/-- Python date subtraction `(a - b).days`: a `timedelta` whose `.days`
is the difference of the ordinals. -/
def date_sub_days (a b : PyDate) : ℤ := date_toordinal a - date_toordinal b

/-- Left-pad a numeral with zeros. -/
def padNum (width : ℕ) (n : ℕ) : String :=
  let s := toString n
  String.mk (List.replicate (width - s.length) '0') ++ s

/-- `date.isoformat`: `YYYY-MM-DD` (years of the embedded use are positive). -/
def isoformat (d : PyDate) : String :=
  padNum 4 d.year.toNat ++ "-" ++ padNum 2 d.month ++ "-" ++ padNum 2 d.day

/-- `d - relativedelta(months=n)`: shift the month down by `n`, carrying
into the year, and clamp the day to the target month's length
(dateutil's normalization). -/
def subMonths (d : PyDate) (n : ℕ) : PyDate :=
  let m0 : ℤ := (d.month : ℤ) - (n : ℤ)
  let y := d.year + (m0 - 1).fdiv 12
  let m := ((m0 - 1).emod 12 + 1).toNat
  { year := y, month := m, day := min d.day (daysInMonth y m) }

/-! ## URL construction and request parameters -/

/-- Python `sep.join(parts)`. -/
def pyJoin (sep : String) : List String → String
  | [] => ""
  | [x] => x
  | x :: xs => x ++ sep ++ pyJoin sep xs

/-- The fixed base endpoint of both NASDAQ variants. -/
def nasdaq_api_url : String := "https://api.nasdaq.com/api/quote"

/-- The fixed sub-path of both NASDAQ variants. -/
def nasdaq_api_service : String := "historical"

/-- `PriceHistoryNASDAQ._build_url` (primary variant):
`'/'.join([self._api_url, symbol, self._api_service])`. -/
def nasdaq_build_url (symbol : String) : String :=
  pyJoin "/" [nasdaq_api_url, symbol, nasdaq_api_service]

/-- `PriceHistory._build_url` (near-duplicate variant):
`'/'.join([self._api_url, self._api_service])` — no symbol. -/
def variant_build_url (_symbol : String) : String :=
  pyJoin "/" [nasdaq_api_url, nasdaq_api_service]

/-- The query parameters sent by `_grab_prices` (both variants build the
same dict: fromdate, todate, assetclass, limit). -/
structure RequestParams where
  fromdate : String
  todate : String
  assetclass : String
  limit : ℤ
  deriving DecidableEq, Repr

/-- The `params` dict of `_grab_prices`: ISO dates, `'stocks'`, and
`limit = (to_date - from_date).days`. -/
def grab_prices_params (from_date to_date : PyDate) : RequestParams :=
  { fromdate := isoformat from_date
    todate := isoformat to_date
    assetclass := "stocks"
    limit := date_sub_days to_date from_date }

/-! ## Numeric-string cleaning (`re.sub('[$,]', '', s)`, `str.replace`,
`float(...)`, `int(...)`) -/

/-- `re.sub('[$,]', '', s)`: delete every `$` and `,` character. -/
def re_sub_dollar_comma (s : String) : String :=
  String.mk (s.data.filter (fun c => !(c == '$' || c == ',')))

/-- `s.replace(',', '')`: delete every `,` character. -/
def str_replace_comma (s : String) : String :=
  String.mk (s.data.filter (fun c => !(c == ',')))

/-- `s.replace('$', '')`: delete every `$` character (used by the
near-duplicate variant). -/
def str_replace_dollar (s : String) : String :=
  String.mk (s.data.filter (fun c => !(c == '$')))

/-- Split a character list at the first occurrence of `c`: the part before
it, and — when `c` occurs — the part after it. -/
def splitFirst (c : Char) : List Char → List Char × Option (List Char)
  | [] => ([], none)
  | x :: xs =>
      if x = c then ([], some xs)
      else
        let r := splitFirst c xs
        (x :: r.1, r.2)

/-- The value of a (most-significant-first) digit list. -/
def digitsToNat (l : List Char) : ℕ :=
  l.foldl (fun a c => 10 * a + (c.toNat - 48)) 0

/-- Python `float(s)` restricted to the shapes the cleaned quote fields
take: an unsigned decimal numeral with at most one point and at least one
digit. Anything else raises `ValueError` (modelled as `none`); signs,
exponents, whitespace and `inf`/`nan` do not occur in the embedded data. -/
def python_float (s : String) : Option ℚ :=
  match splitFirst '.' s.data with
  | (w, none) =>
      if w ≠ [] ∧ w.all Char.isDigit then some (digitsToNat w : ℚ) else none
  | (w, some f) =>
      if (w ≠ [] ∨ f ≠ []) ∧ w.all Char.isDigit ∧ f.all Char.isDigit then
        some ((digitsToNat w : ℚ) + (digitsToNat f : ℚ) / 10 ^ f.length)
      else none

/-- Python `int(s)` restricted likewise: an unsigned digit string. -/
def python_int (s : String) : Option ℤ :=
  if s.data ≠ [] ∧ s.data.all Char.isDigit then some (digitsToNat s.data : ℤ)
  else none

/-- Cleaning of a close/open/high/low field in the primary variant:
`float(re.sub('[$,]', '', s))`. -/
def clean_price (s : String) : Option ℚ := python_float (re_sub_dollar_comma s)

/-- Cleaning of the volume field in the primary variant:
`int(s.replace(',', ''))`. -/
def clean_volume (s : String) : Option ℤ := python_int (str_replace_comma s)

/-! ## The primary fetcher `PriceHistoryNASDAQ` -/

/-- What the HTTP layer hands back for one GET: the `ok` flag
(status < 400) and, when the body parses as expected, the row objects at
the fixed path `data.tradesTable.rows`. -/
structure NasdaqResponse where
  ok : Bool
  rows : List Row
  deriving DecidableEq, Repr

/-- The HTTP boundary: a map from the request (URL and query parameters)
to the response. -/
abbrev NasdaqEnv := String → RequestParams → NasdaqResponse

/-- One price field cleaned in place:
`table_row[k] = float(re.sub('[$,]', '', table_row[k]))`. `KeyError` if the
field is absent, `TypeError` if it is not a string, `ValueError` if the
stripped string is not a numeral. -/
def cleanPriceField (r : Row) (k : String) : Except PyErr Row := do
  let v ← dictGet r k
  let s ← asStr v
  match python_float (re_sub_dollar_comma s) with
  | some q => Except.ok (dictSet r k (PyVal.float q))
  | none => Except.error PyErr.valueError

/-- The volume field cleaned in place:
`table_row['volume'] = int(table_row['volume'].replace(',', ''))`. -/
def cleanVolumeField (r : Row) : Except PyErr Row := do
  let v ← dictGet r "volume"
  let s ← asStr v
  match python_int (str_replace_comma s) with
  | some n => Except.ok (dictSet r "volume" (PyVal.int n))
  | none => Except.error PyErr.valueError

/-- The body of the cleaning loop of `PriceHistoryNASDAQ._grab_prices`
for one `table_row`, in source order: symbol, close, volume, open, high,
low. -/
def cleanRow (symbol : String) (r : Row) : Except PyErr Row := do
  let r := dictSet r "symbol" (PyVal.str symbol)
  let r ← cleanPriceField r "close"
  let r ← cleanVolumeField r
  let r ← cleanPriceField r "open"
  let r ← cleanPriceField r "high"
  Except.ok (← cleanPriceField r "low")

/-- `PriceHistoryNASDAQ._grab_prices`: build the URL and the params, GET,
and when the response is ok clean every row; when it is not ok the
function falls off the `if` and returns Python `None` (`Option.none`). -/
def grab_prices (env : NasdaqEnv) (symbol : String)
    (from_date to_date : PyDate) : Except PyErr (Option (List Row)) := do
  let price_url := nasdaq_build_url symbol
  let params := grab_prices_params from_date to_date
  let historical_data := env price_url params
  if historical_data.ok then
    Except.ok (some (← historical_data.rows.mapM (cleanRow symbol)))
  else
    Except.ok none

/-- Columns of `pd.DataFrame(list_of_dicts)`: the union of the dicts' keys
in order of first appearance. -/
def unionKeys (rows : List Row) : List String :=
  rows.foldl (fun acc r => acc ++ (r.map Prod.fst).filter (fun k => k ∉ acc)) []

/-- `pd.to_datetime` on one cell, to the extent the embedded data needs:
a string is parsed (tagged), an already-parsed value or NaT is kept; other
scalar kinds do not occur in the rows the pipeline feeds it. -/
def to_datetime_cell : PyVal → Except PyErr PyVal
  | PyVal.str s => Except.ok (PyVal.datetime s)
  | PyVal.datetime s => Except.ok (PyVal.datetime s)
  | PyVal.naT => Except.ok PyVal.naT
  | _ => Except.error PyErr.typeError

/-- `df['date'] = pd.to_datetime(df['date'])`, one row at a time: a row
without a `date` key holds NaN in that column, which `to_datetime` maps to
NaT. -/
def to_datetime_row (r : Row) : Except PyErr Row :=
  match r.lookup "date" with
  | some v => do Except.ok (dictSet r "date" (← to_datetime_cell v))
  | none => Except.ok (dictSet r "date" PyVal.naT)

/-- The `date` column conversion of `_build_data_frame`: reading
`df['date']` raises `KeyError` when `date` is no column of the frame. -/
def pd_set_date (rows : List Row) : Except PyErr (List Row) :=
  if "date" ∈ unionKeys rows then rows.mapM to_datetime_row
  else Except.error PyErr.keyError

/-- The result table. -/
structure DataFrame where
  columns : List String
  rows : List Row
  deriving DecidableEq, Repr

/-- The accumulation loop of `PriceHistoryNASDAQ._build_data_frame`:
`for symbol in symbols: all_data = self._grab_prices(...) + all_data`.
When `_grab_prices` returned `None`, `None + all_data` raises `TypeError`. -/
def build_rows (env : NasdaqEnv) (from_date to_date : PyDate) :
    List String → List Row → Except PyErr (List Row)
  | [], all_data => Except.ok all_data
  | symbol :: rest, all_data => do
      match ← grab_prices env symbol from_date to_date with
      | none => Except.error PyErr.typeError
      | some rows => build_rows env from_date to_date rest (rows ++ all_data)

/-- `PriceHistoryNASDAQ._build_data_frame`: resolve the window to
`[today - 6 months, today]`, run the accumulation loop, build the frame,
and convert the `date` column. -/
def build_data_frame (env : NasdaqEnv) (today : PyDate)
    (symbols : List String) : Except PyErr DataFrame := do
  let to_date := today
  let from_date := subMonths to_date 6
  let all_data ← build_rows env from_date to_date symbols []
  let rows ← pd_set_date all_data
  Except.ok { columns := unionKeys all_data, rows := rows }

/-! ## The exchange-rate fetcher `DolarPrices` -/

/-- The fixed base URL of `DolarPrices` (note the trailing slash, kept as
in the source). -/
def dolar_api_url : String := "https://api.argentinadatos.com/v1/"

/-- The fixed service sub-path of `DolarPrices`. -/
def dolar_api_service : String := "cotizaciones/dolares"

/-- `DolarPrices._build_url`:
`'/'.join([self._api_url, self._api_service, symbol])`. -/
def dolar_build_url (symbol : String) : String :=
  pyJoin "/" [dolar_api_url, dolar_api_service, symbol]

/-- The HTTP boundary of `DolarPrices`: `requests.get(url).json()` parsed
as a list of record objects (no status check is performed in the source). -/
abbrev DolarEnv := String → List Row

/-- A date-indexed frame as produced by `set_index` and column selection:
the index values and, per record, the cells of the selected columns. -/
structure IndexedFrame where
  index : List PyVal
  columns : List String
  rows : List Row
  deriving DecidableEq, Repr

/-- `df['fecha'] = pd.to_datetime(df['fecha'])` on one record. -/
def to_datetime_fecha (r : Row) : Except PyErr Row :=
  match r.lookup "fecha" with
  | some v => do Except.ok (dictSet r "fecha" (← to_datetime_cell v))
  | none => Except.ok (dictSet r "fecha" PyVal.naT)

/-- Projection of one record onto the selected column list (`df[['venta']]`):
a record without the column holds NaN there, modelled as NaT-like absence —
here the cell is simply taken from the record when present. -/
def selectCols (cols : List String) (r : Row) : Row :=
  cols.filterMap (fun k => (r.lookup k).map (fun v => (k, v)))

/-- `DolarPrices._build_data_frame`: GET the category's URL, make a frame
of the records, parse the `fecha` column (`KeyError` when no record has
one), set it as the index, and keep only the `venta` column (`KeyError`
when no record has one). -/
def dolar_build_data_frame (env : DolarEnv) (symbol : String) :
    Except PyErr IndexedFrame := do
  let full_url := dolar_build_url symbol
  let dolar_data := env full_url
  let cols := unionKeys dolar_data
  if "fecha" ∈ cols then
    let dated ← dolar_data.mapM to_datetime_fecha
    if "venta" ∈ cols.erase "fecha" then
      Except.ok
        { index := dated.map (fun r => (r.lookup "fecha").getD PyVal.naT)
          columns := ["venta"]
          rows := dated.map (selectCols ["venta"]) }
    else Except.error PyErr.keyError
  else Except.error PyErr.keyError

/-! ## The window resolution of the three fetchers -/

/-- A Python object as needed for the variant's window computation: a date,
or the empty-list value that `PriceHistory._build_data_frame` assigns to
`to_date`. -/
inductive PyObj where
  | date (d : PyDate)
  | emptyList
  deriving DecidableEq, Repr

/-- `x - relativedelta(months=n)`: defined on dates; on a list it raises
`TypeError` (unsupported operand types). -/
def pyObjSubMonths (x : PyObj) (n : ℕ) : Except PyErr PyObj :=
  match x with
  | PyObj.date d => Except.ok (PyObj.date (subMonths d n))
  | PyObj.emptyList => Except.error PyErr.typeError

/-- Window resolution of `PriceHistoryNASDAQ._build_data_frame`:
`to_date = datetime.now().date(); from_date = to_date - relativedelta(months=6)`. -/
def nasdaq_resolve_window (today : PyDate) : PyDate × PyDate :=
  let to_date := today
  let from_date := subMonths to_date 6
  (from_date, to_date)

/-- Window resolution of the near-duplicate `PriceHistory._build_data_frame`:
`to_date = []` (sic), then `from_date = to_date - relativedelta(months=6)`. -/
def variant_resolve_window : Except PyErr (PyObj × PyObj) := do
  let to_date := PyObj.emptyList
  let from_date ← pyObjSubMonths to_date 6
  Except.ok (from_date, to_date)

/-- Window resolution of `PriceHistoryYF._build_data_frame`: the `None`
defaults are today and six months before `to_date`. -/
def yf_resolve_window (from_d to_d : Option PyDate) (today : PyDate) :
    PyDate × PyDate :=
  let to_date := to_d.getD today
  let from_date := from_d.getD (subMonths to_date 6)
  (from_date, to_date)

/-! ## Theorems -/

/-- C5: for every date window, the record-limit query parameter sent
upstream equals the integer day-count spanned by the window
(`to_date - from_date` in days), and when the two window ends coincide the
computed record-limit is 0. -/
theorem C5_limit_is_day_count (from_date to_date : PyDate) :
    (grab_prices_params from_date to_date).limit
      = date_toordinal to_date - date_toordinal from_date
    ∧ ∀ d : PyDate, (grab_prices_params d d).limit = 0 := by
  refine ⟨rfl, fun d => ?_⟩
  simp [grab_prices_params, date_sub_days]

/-- C9 (code bug): the NASDAQ and Yahoo fetchers resolve an unsupplied
window to `[today - 6 months, today]`, but the near-duplicate
`PriceHistory` variant assigns the empty list to `to_date`, so its window
resolution raises `TypeError` unconditionally instead of producing the
claimed window. -/
theorem C9_default_window (today : PyDate) :
    nasdaq_resolve_window today = (subMonths today 6, today)
    ∧ yf_resolve_window none none today = (subMonths today 6, today)
    ∧ variant_resolve_window = Except.error PyErr.typeError :=
  ⟨rfl, rfl, rfl⟩

/-- C2 (counterexample): for the symbol `AAPL`, the URL built by the
primary fetcher does contain the symbol (between the base endpoint and the
`historical` sub-path), and none of the string-valued query parameters of
a concrete window carries the symbol. -/
theorem C2_counterexample :
    (∃ pre post, nasdaq_build_url "AAPL" = pre ++ "AAPL" ++ post)
    ∧ (grab_prices_params ⟨2026, 4, 12⟩ ⟨2026, 10, 12⟩).fromdate ≠ "AAPL"
    ∧ (grab_prices_params ⟨2026, 4, 12⟩ ⟨2026, 10, 12⟩).todate ≠ "AAPL"
    ∧ (grab_prices_params ⟨2026, 4, 12⟩ ⟨2026, 10, 12⟩).assetclass ≠ "AAPL" := by
  exact ⟨⟨"https://api.nasdaq.com/api/quote/", "/historical", by decide⟩,
    by decide, by decide, by decide⟩

/-- C2 (amended): the primary fetcher's URL joins base endpoint, symbol
and `historical` sub-path — the symbol sits in the path — while the query
parameters are exactly the window's ISO dates, the asset class and the
record limit, none of which is the symbol slot; the near-duplicate variant
is the one whose URL omits the symbol. -/
theorem C2_amended (symbol : String) (from_date to_date : PyDate) :
    nasdaq_build_url symbol
      = nasdaq_api_url ++ "/" ++ symbol ++ "/" ++ nasdaq_api_service
    ∧ variant_build_url symbol = nasdaq_api_url ++ "/" ++ nasdaq_api_service
    ∧ grab_prices_params from_date to_date
        = { fromdate := isoformat from_date, todate := isoformat to_date,
            assetclass := "stocks",
            limit := date_sub_days to_date from_date } := by
  refine ⟨?_, rfl, rfl⟩
  simp [nasdaq_build_url, pyJoin, String.append_assoc]

/-- An arbitrary fixed environment (every request succeeds with no rows). -/
def emptyOkEnv : NasdaqEnv := fun _ _ => { ok := true, rows := [] }

/-- C3 (counterexample): constructing the primary fetcher with an empty
symbol list does not produce an empty table — reading the `date` column of
the empty frame raises `KeyError`. -/
theorem C3_counterexample :
    build_data_frame emptyOkEnv ⟨2026, 10, 12⟩ [] = Except.error PyErr.keyError :=
  rfl

/-- C3 (amended): for every environment and every current date,
constructing the primary fetcher with an empty symbol list raises
`KeyError` (the empty frame has no `date` column); no table is produced. -/
theorem C3_amended (env : NasdaqEnv) (today : PyDate) :
    build_data_frame env today [] = Except.error PyErr.keyError :=
  rfl

/-- A well-formed upstream row for one trading day. -/
def rowA : Row :=
  [("date", PyVal.str "10/10/2025"), ("close", PyVal.str "$1.00"),
   ("volume", PyVal.str "100"), ("open", PyVal.str "$1.00"),
   ("high", PyVal.str "$1.00"), ("low", PyVal.str "$1.00")]

/-- An environment in which symbol `A`'s request succeeds with one row and
every other request (in particular symbol `B`'s) gets a non-2xx response. -/
def envAB : NasdaqEnv := fun url _ =>
  if url = nasdaq_build_url "A" then { ok := true, rows := [rowA] }
  else { ok := false, rows := [] }

/-- C1 (code bug): with symbols `[A, B]` where `A` succeeds and `B` gets a
non-2xx response, the per-symbol fetch for `B` itself raises nothing and
yields Python `None`, but the accumulation step `None + all_data` then
raises `TypeError`: construction aborts instead of completing with `A`'s
rows. -/
theorem C1_nonok_aborts :
    grab_prices envAB "B" (subMonths ⟨2026, 10, 12⟩ 6) ⟨2026, 10, 12⟩
      = Except.ok none
    ∧ build_data_frame envAB ⟨2026, 10, 12⟩ ["A", "B"]
        = Except.error PyErr.typeError := by
  constructor <;> rfl

/-! ## Lemmas about the cleaning functions -/

lemma digit_keep_dollar_comma {c : Char} (h : c.isDigit = true) :
    (!(c == '$' || c == ',')) = true := by
  have h1 : c ≠ '$' := by rintro rfl; exact absurd h (by decide)
  have h2 : c ≠ ',' := by rintro rfl; exact absurd h (by decide)
  simp [h1, h2]

lemma digit_keep_comma {c : Char} (h : c.isDigit = true) :
    (!(c == ',')) = true := by
  have h2 : c ≠ ',' := by rintro rfl; exact absurd h (by decide)
  simp [h2]

lemma digit_ne_dot {c : Char} (h : c.isDigit = true) : c ≠ '.' := by
  rintro rfl; exact absurd h (by decide)

/-- A character list made of digits and grouping commas, as in the digit
part of `$1,234.56` or of `12,345`. -/
def GroupedDigits (gs : List Char) : Prop :=
  ∀ c ∈ gs, c.isDigit = true ∨ c = ','

instance (gs : List Char) : Decidable (GroupedDigits gs) :=
  inferInstanceAs (Decidable (∀ c ∈ gs, c.isDigit = true ∨ c = ','))

lemma filter_digits_keep {f : List Char} (hf : f.all Char.isDigit = true) :
    f.filter (fun c => !(c == '$' || c == ',')) = f := by
  rw [List.filter_eq_self]
  intro a ha
  exact digit_keep_dollar_comma (by rw [List.all_eq_true] at hf; exact hf a ha)

lemma filter_grouped_dollar_comma {gs : List Char} (hg : GroupedDigits gs) :
    gs.filter (fun c => !(c == '$' || c == ',')) = gs.filter Char.isDigit := by
  apply List.filter_congr
  intro c hc
  rcases hg c hc with hd | hc'
  · rw [digit_keep_dollar_comma hd, hd]
  · subst hc'; rfl

lemma filter_grouped_comma {gs : List Char} (hg : GroupedDigits gs) :
    gs.filter (fun c => !(c == ',')) = gs.filter Char.isDigit := by
  apply List.filter_congr
  intro c hc
  rcases hg c hc with hd | hc'
  · rw [digit_keep_comma hd, hd]
  · subst hc'; rfl

lemma splitFirst_append_cons {g f : List Char} (hg : ∀ x ∈ g, x ≠ '.') :
    splitFirst '.' (g ++ '.' :: f) = (g, some f) := by
  induction g with
  | nil => simp [splitFirst]
  | cons x t ih =>
      have hx : ¬(x = '.') := hg x (List.mem_cons_self _ _)
      simp [splitFirst, hx, ih (fun y hy => hg y (List.mem_cons_of_mem _ hy))]

lemma data_mk (l : List Char) : (String.mk l).data = l := rfl

/-- C4: the cleaning of the primary fetcher's numeric fields. The
character stripping is idempotent; for every close/open/high/low string of
the form `$<digits-with-grouping-commas>.<digits>` the cleaned decimal is
the numeral read without the currency marker and the separators; for every
volume string of digits with grouping commas the cleaned integer is the
numeral read without the separators. -/
theorem C4_cleaning :
    (∀ s, re_sub_dollar_comma (re_sub_dollar_comma s) = re_sub_dollar_comma s)
    ∧ (∀ s, str_replace_comma (str_replace_comma s) = str_replace_comma s)
    ∧ (∀ gs f : List Char, GroupedDigits gs → f ≠ [] →
        f.all Char.isDigit = true →
        clean_price (String.mk ('$' :: gs ++ '.' :: f))
          = some ((digitsToNat (gs.filter Char.isDigit) : ℚ)
              + (digitsToNat f : ℚ) / 10 ^ f.length))
    ∧ (∀ gs : List Char, GroupedDigits gs → (∃ c ∈ gs, c.isDigit = true) →
        clean_volume (String.mk gs)
          = some (digitsToNat (gs.filter Char.isDigit) : ℤ)) := by
  refine ⟨fun s => ?_, fun s => ?_, fun gs f hg hf1 hf2 => ?_, fun gs hg hne => ?_⟩
  · simp [re_sub_dollar_comma, data_mk, List.filter_filter]
  · simp [str_replace_comma, data_mk, List.filter_filter]
  · have hkey : List.filter (fun c => !(c == '$' || c == ','))
        ('$' :: gs ++ '.' :: f) = gs.filter Char.isDigit ++ '.' :: f := by
      rw [show ('$' :: gs ++ '.' :: f : List Char)
          = '$' :: (gs ++ '.' :: f) from rfl]
      rw [List.filter_cons_of_neg (by decide), List.filter_append,
        List.filter_cons_of_pos (by decide), filter_grouped_dollar_comma hg,
        filter_digits_keep hf2]
    have hstrip : re_sub_dollar_comma (String.mk ('$' :: gs ++ '.' :: f))
        = String.mk (gs.filter Char.isDigit ++ '.' :: f) := by
      unfold re_sub_dollar_comma
      rw [data_mk, hkey]
    have hdots : ∀ x ∈ gs.filter Char.isDigit, x ≠ '.' := by
      intro x hx
      exact digit_ne_dot (List.of_mem_filter hx)
    have hsplit : splitFirst '.' (gs.filter Char.isDigit ++ '.' :: f)
        = (gs.filter Char.isDigit, some f) := splitFirst_append_cons hdots
    have hgall : (gs.filter Char.isDigit).all Char.isDigit = true := by
      rw [List.all_eq_true]; intro x hx; exact List.of_mem_filter hx
    have hcond : (List.filter Char.isDigit gs ≠ [] ∨ f ≠ [])
        ∧ (List.filter Char.isDigit gs).all Char.isDigit = true
        ∧ f.all Char.isDigit = true := ⟨Or.inr hf1, hgall, hf2⟩
    unfold clean_price python_float
    rw [hstrip, data_mk, hsplit]
    exact if_pos hcond
  · have hkey : List.filter (fun c => !(c == ',')) gs
        = gs.filter Char.isDigit := filter_grouped_comma hg
    have hstrip : str_replace_comma (String.mk gs)
        = String.mk (gs.filter Char.isDigit) := by
      unfold str_replace_comma
      rw [data_mk, hkey]
    obtain ⟨c, hc, hcd⟩ := hne
    have hne' : gs.filter Char.isDigit ≠ [] := by
      intro hnil
      exact absurd (List.mem_filter.2 ⟨hc, hcd⟩) (by simp [hnil])
    have hgall : (gs.filter Char.isDigit).all Char.isDigit = true := by
      rw [List.all_eq_true]; intro x hx; exact List.of_mem_filter hx
    unfold clean_volume python_int
    rw [hstrip, data_mk, if_pos ⟨hne', hgall⟩]

/-- C4 (witness): the cleaned close string `$1,234.56` is the decimal
`1234.56` and the cleaned volume string `12,345` is the integer `12345`. -/
theorem C4_witness :
    clean_price "$1,234.56" = some ((123456 : ℚ) / 100)
    ∧ clean_volume "12,345" = some (12345 : ℤ) := by
  constructor
  · have h := C4_cleaning.2.2.1 ['1', ',', '2', '3', '4'] ['5', '6']
      (by decide) (by decide) (by decide)
    rw [show ("$1,234.56" : String)
        = String.mk ('$' :: ['1', ',', '2', '3', '4'] ++ '.' :: ['5', '6'])
      from rfl, h]
    rw [show digitsToNat (List.filter Char.isDigit ['1', ',', '2', '3', '4'])
        = 1234 from by decide]
    rw [show digitsToNat ['5', '6'] = 56 from by decide]
    norm_num
  · have h := C4_cleaning.2.2.2 ['1', '2', ',', '3', '4', '5']
      (by decide) (by decide)
    rw [show ("12,345" : String)
        = String.mk ['1', '2', ',', '3', '4', '5'] from rfl, h]
    rw [show digitsToNat
        (List.filter Char.isDigit ['1', '2', ',', '3', '4', '5'])
        = 12345 from by decide]
    norm_num

/-! ## Lemmas about dict update and the cleaning loop's frame -/

lemma lookup_dictSet (r : Row) (k k' : String) (v : PyVal) :
    (dictSet r k v).lookup k' = if k' = k then some v else r.lookup k' := by
  induction r with
  | nil =>
      by_cases h : k' = k
      · simp [dictSet, List.lookup, h]
      · have hb : (k' == k) = false := beq_eq_false_iff_ne.mpr h
        simp [dictSet, List.lookup, hb, h]
  | cons p t ih =>
      obtain ⟨k₀, v₀⟩ := p
      by_cases h0 : k₀ = k
      · subst h0
        by_cases h : k' = k₀
        · simp [dictSet, List.lookup, h]
        · have hb : (k' == k₀) = false := beq_eq_false_iff_ne.mpr h
          simp [dictSet, List.lookup, hb, h]
      · by_cases h : k' = k₀
        · subst h
          simp [dictSet, h0, List.lookup]
        · have hb : (k' == k₀) = false := beq_eq_false_iff_ne.mpr h
          simp [dictSet, h0, List.lookup, hb, ih]

lemma cleanPriceField_eq {r : Row} {k : String} {r' : Row}
    (h : cleanPriceField r k = Except.ok r') :
    ∃ q, r' = dictSet r k (PyVal.float q) := by
  unfold cleanPriceField at h
  simp only [bind, Except.bind] at h
  split at h
  · simp at h
  · split at h
    · simp at h
    · split at h
      · next q hq => exact ⟨q, (Except.ok.inj h).symm⟩
      · simp at h

lemma cleanVolumeField_eq {r : Row} {r' : Row}
    (h : cleanVolumeField r = Except.ok r') :
    ∃ n, r' = dictSet r "volume" (PyVal.int n) := by
  unfold cleanVolumeField at h
  simp only [bind, Except.bind] at h
  split at h
  · simp at h
  · split at h
    · simp at h
    · split at h
      · next n hn => exact ⟨n, (Except.ok.inj h).symm⟩
      · simp at h

/-- C10: a successful run of the primary fetcher's row-cleaning step
rewrites only the close, volume, open, high and low fields and adds the
symbol field; every other field — in particular `date` — keeps its
original value from the upstream row. -/
theorem C10_cleanRow_frame (symbol : String) (r r' : Row)
    (h : cleanRow symbol r = Except.ok r') :
    (∀ k, k ∉ ["symbol", "close", "volume", "open", "high", "low"] →
        r'.lookup k = r.lookup k)
    ∧ r'.lookup "symbol" = some (PyVal.str symbol) := by
  unfold cleanRow at h
  simp only [bind, Except.bind] at h
  split at h
  · simp at h
  · next r1 h1 =>
    split at h
    · simp at h
    · next r2 h2 =>
      split at h
      · simp at h
      · next r3 h3 =>
        split at h
        · simp at h
        · next r4 h4 =>
          split at h
          · simp at h
          · next r5 h5 =>
            simp only [Except.ok.injEq] at h
            subst h
            obtain ⟨q1, e1⟩ := cleanPriceField_eq h1
            obtain ⟨n2, e2⟩ := cleanVolumeField_eq h2
            obtain ⟨q3, e3⟩ := cleanPriceField_eq h3
            obtain ⟨q4, e4⟩ := cleanPriceField_eq h4
            obtain ⟨q5, e5⟩ := cleanPriceField_eq h5
            subst e1 e2 e3 e4 e5
            constructor
            · intro k hk
              simp only [List.mem_cons, List.not_mem_nil, or_false] at hk
              push_neg at hk
              obtain ⟨hk1, hk2, hk3, hk4, hk5, hk6⟩ := hk
              simp [lookup_dictSet, hk1, hk2, hk3, hk4, hk5, hk6]
            · simp [lookup_dictSet]

/-- An upstream row carrying an extra field beside the standard ones. -/
def sampleRow : Row :=
  [("date", PyVal.str "10/10/2025"), ("extra", PyVal.str "keep"),
   ("close", PyVal.str "$1,234"), ("volume", PyVal.str "12,345"),
   ("open", PyVal.str "$2"), ("high", PyVal.str "$3"),
   ("low", PyVal.str "$1")]

/-- The cleaned form of `sampleRow` for the symbol `AAPL`. -/
def cleanedSample : Row :=
  [("date", PyVal.str "10/10/2025"), ("extra", PyVal.str "keep"),
   ("close", PyVal.float 1234), ("volume", PyVal.int 12345),
   ("open", PyVal.float 2), ("high", PyVal.float 3),
   ("low", PyVal.float 1), ("symbol", PyVal.str "AAPL")]

/-- C10 (witness): on a concrete row with an extra field, cleaning for
`AAPL` succeeds and leaves the `date` and `extra` fields untouched while
adding the symbol field. -/
theorem C10_witness :
    cleanRow "AAPL" sampleRow = Except.ok cleanedSample
    ∧ cleanedSample.lookup "date" = sampleRow.lookup "date"
    ∧ cleanedSample.lookup "extra" = sampleRow.lookup "extra"
    ∧ cleanedSample.lookup "symbol" = some (PyVal.str "AAPL") := by
  have h : cleanRow "AAPL" sampleRow = Except.ok cleanedSample := by rfl
  have hf := C10_cleanRow_frame "AAPL" sampleRow cleanedSample h
  exact ⟨h, hf.1 "date" (by decide), hf.1 "extra" (by decide), hf.2⟩

/-! ## Error propagation in the primary fetcher -/

lemma grab_prices_error_of_row {env : NasdaqEnv} {s : String}
    {fd td : PyDate} {e : PyErr}
    (hok : (env (nasdaq_build_url s) (grab_prices_params fd td)).ok = true)
    (hrow : (env (nasdaq_build_url s) (grab_prices_params fd td)).rows.mapM
        (cleanRow s) = Except.error e) :
    grab_prices env s fd td = Except.error e := by
  unfold grab_prices
  simp only [hok, if_true, hrow, bind, Except.bind]

lemma build_rows_error (env : NasdaqEnv) (fd td : PyDate) (s : String)
    (e : PyErr) (hbad : grab_prices env s fd td = Except.error e) :
    ∀ symbols : List String, s ∈ symbols → ∀ acc,
      ∃ e', build_rows env fd td symbols acc = Except.error e' := by
  intro symbols
  induction symbols with
  | nil => intro hs; cases hs
  | cons hd tl ih =>
      intro hs acc
      cases hg : grab_prices env hd fd td with
      | error e'' =>
          refine ⟨e'', ?_⟩
          unfold build_rows
          rw [hg]
          rfl
      | ok o =>
          cases o with
          | none =>
              refine ⟨PyErr.typeError, ?_⟩
              unfold build_rows
              rw [hg]
              rfl
          | some rows =>
              rcases List.mem_cons.mp hs with h | h
              · subst h
                rw [hbad] at hg
                cases hg
              · obtain ⟨e', h'⟩ := ih h (rows ++ acc)
                refine ⟨e', ?_⟩
                unfold build_rows
                rw [hg]
                exact h'

/-- C8: a parsing failure on any row of any symbol's successful response —
a numeric field whose cleaned string is not a numeral — propagates as a
fatal failure out of the whole construction: `_build_data_frame` (and with
it the constructor) yields an error, never a partial table. -/
theorem C8_parse_failure_aborts (env : NasdaqEnv) (today : PyDate)
    (symbols : List String) (s : String) (e : PyErr)
    (hs : s ∈ symbols)
    (hok : (env (nasdaq_build_url s)
        (grab_prices_params (subMonths today 6) today)).ok = true)
    (hrow : (env (nasdaq_build_url s)
        (grab_prices_params (subMonths today 6) today)).rows.mapM
          (cleanRow s) = Except.error e) :
    ∃ e', build_data_frame env today symbols = Except.error e' := by
  have hg := grab_prices_error_of_row hok hrow
  obtain ⟨e', h'⟩ :=
    build_rows_error env (subMonths today 6) today s e hg symbols hs []
  refine ⟨e', ?_⟩
  unfold build_data_frame
  simp only [h', bind, Except.bind]

/-- An upstream row whose close field is not numeric. -/
def badRow : Row :=
  [("date", PyVal.str "10/10/2025"), ("close", PyVal.str "N/A"),
   ("volume", PyVal.str "100"), ("open", PyVal.str "$1"),
   ("high", PyVal.str "$1"), ("low", PyVal.str "$1")]

/-- An environment whose every response succeeds with the bad row. -/
def envBad : NasdaqEnv := fun _ _ => { ok := true, rows := [badRow] }

/-- C8 (witness): with one symbol whose response contains a row with the
non-numeric close `N/A`, the whole construction errors out. -/
theorem C8_witness :
    ∃ e', build_data_frame envBad ⟨2026, 10, 12⟩ ["X"] = Except.error e' :=
  C8_parse_failure_aborts envBad ⟨2026, 10, 12⟩ ["X"] "X" PyErr.valueError
    (by decide) (by rfl) (by rfl)

/-! ## Row accumulation order in the primary fetcher -/

lemma build_rows_ok (env : NasdaqEnv) (fd td : PyDate)
    (cleaned : String → List Row) :
    ∀ symbols : List String,
      (∀ s ∈ symbols, grab_prices env s fd td = Except.ok (some (cleaned s))) →
      ∀ acc, build_rows env fd td symbols acc
        = Except.ok ((symbols.reverse).flatMap cleaned ++ acc) := by
  intro symbols
  induction symbols with
  | nil => intro _ acc; simp [build_rows]
  | cons hd tl ih =>
      intro hok acc
      unfold build_rows
      rw [hok hd (List.mem_cons_self _ _)]
      show build_rows env fd td tl (cleaned hd ++ acc) = _
      rw [ih (fun s hs => hok s (List.mem_cons_of_mem _ hs)) (cleaned hd ++ acc)]
      congr 1
      simp [List.reverse_cons, List.flatMap_append, List.append_assoc]

lemma mem_unionKeys_aux (k : String) :
    ∀ (rows : List Row) (acc : List String),
      (k ∈ acc ∨ ∃ r ∈ rows, k ∈ r.map Prod.fst) →
      k ∈ rows.foldl
        (fun acc r => acc ++ (r.map Prod.fst).filter (fun x => x ∉ acc)) acc := by
  intro rows
  induction rows with
  | nil =>
      intro acc h
      rcases h with h | ⟨r, hr, _⟩
      · exact h
      · cases hr
  | cons r t ih =>
      intro acc h
      simp only [List.foldl_cons]
      apply ih
      rcases h with h | ⟨r', hr', hk⟩
      · exact Or.inl (List.mem_append_left _ h)
      · rcases List.mem_cons.mp hr' with rfl | hr't
        · by_cases hacc : k ∈ acc
          · exact Or.inl (List.mem_append_left _ hacc)
          · exact Or.inl (List.mem_append_right _
              (List.mem_filter.mpr ⟨hk, by simpa using hacc⟩))
        · exact Or.inr ⟨r', hr't, hk⟩

lemma mem_unionKeys {k : String} {r : Row} {rows : List Row}
    (hk : k ∈ r.map Prod.fst) (hr : r ∈ rows) : k ∈ unionKeys rows :=
  mem_unionKeys_aux k rows [] (Or.inr ⟨r, hr, hk⟩)

lemma lookup_mem_keys {r : Row} {k : String} {v : PyVal}
    (h : r.lookup k = some v) : k ∈ r.map Prod.fst := by
  induction r with
  | nil => cases h
  | cons p t ih =>
      obtain ⟨k₀, v₀⟩ := p
      by_cases hk : k = k₀
      · subst hk; simp
      · have hb : (k == k₀) = false := beq_eq_false_iff_ne.mpr hk
        simp only [List.lookup, hb] at h
        simp [ih h]

lemma mapM_to_datetime_ok :
    ∀ l : List Row,
      (∀ r ∈ l, ∃ ds, r.lookup "date" = some (PyVal.str ds)) →
      ∃ out, l.mapM to_datetime_row = Except.ok out := by
  intro l
  induction l with
  | nil => intro _; exact ⟨[], rfl⟩
  | cons r t ih =>
      intro h
      obtain ⟨ds, hds⟩ := h r (List.mem_cons_self _ _)
      obtain ⟨out, hout⟩ := ih (fun x hx => h x (List.mem_cons_of_mem _ hx))
      have h1 : to_datetime_row r
          = Except.ok (dictSet r "date" (PyVal.datetime ds)) := by
        unfold to_datetime_row
        rw [hds]
        rfl
      refine ⟨dictSet r "date" (PyVal.datetime ds) :: out, ?_⟩
      rw [List.mapM_cons, h1, hout]
      rfl

/-- C6: when every symbol's fetch succeeds with its cleaned batch, the
final table's rows are the per-symbol batches flattened in reverse input
symbol order (each batch contiguous and in upstream order), transformed
row-by-row (order-preservingly) by the date-column conversion. -/
theorem C6_row_ordering (env : NasdaqEnv) (today : PyDate)
    (symbols : List String) (cleaned : String → List Row)
    (hok : ∀ s ∈ symbols,
      grab_prices env s (subMonths today 6) today
        = Except.ok (some (cleaned s)))
    (hdate : ∀ s ∈ symbols, ∀ r ∈ cleaned s,
      ∃ ds, r.lookup "date" = some (PyVal.str ds))
    (hne : ∃ s ∈ symbols, cleaned s ≠ []) :
    ∃ df rows', build_data_frame env today symbols = Except.ok df
      ∧ ((symbols.reverse).flatMap cleaned).mapM to_datetime_row
          = Except.ok rows'
      ∧ df.rows = rows'
      ∧ df.columns = unionKeys ((symbols.reverse).flatMap cleaned) := by
  have hbr := build_rows_ok env (subMonths today 6) today cleaned symbols hok []
  rw [List.append_nil] at hbr
  have hdate' : ∀ r ∈ (symbols.reverse).flatMap cleaned,
      ∃ ds, r.lookup "date" = some (PyVal.str ds) := by
    intro r hr
    rw [List.mem_flatMap] at hr
    obtain ⟨s, hs, hrs⟩ := hr
    exact hdate s (by rwa [List.mem_reverse] at hs) r hrs
  obtain ⟨out, hout⟩ := mapM_to_datetime_ok _ hdate'
  obtain ⟨s₀, hs₀, hne₀⟩ := hne
  obtain ⟨r₀, hr₀⟩ := List.exists_mem_of_ne_nil _ hne₀
  obtain ⟨ds₀, hds₀⟩ := hdate s₀ hs₀ r₀ hr₀
  have hmem : r₀ ∈ (symbols.reverse).flatMap cleaned := by
    rw [List.mem_flatMap]
    exact ⟨s₀, List.mem_reverse.mpr hs₀, hr₀⟩
  have hdatecol : "date" ∈ unionKeys ((symbols.reverse).flatMap cleaned) :=
    mem_unionKeys (lookup_mem_keys hds₀) hmem
  have hset : pd_set_date ((symbols.reverse).flatMap cleaned)
      = Except.ok out := by
    unfold pd_set_date
    rw [if_pos hdatecol, hout]
  refine ⟨⟨unionKeys ((symbols.reverse).flatMap cleaned), out⟩, out,
    ?_, hout, rfl, rfl⟩
  unfold build_data_frame
  simp only [hbr, hset, bind, Except.bind]

/-- Upstream row for symbol `A` in the ordering example. -/
def rowA6 : Row :=
  [("date", PyVal.str "01/02/2026"), ("close", PyVal.str "$1"),
   ("volume", PyVal.str "10"), ("open", PyVal.str "$1"),
   ("high", PyVal.str "$1"), ("low", PyVal.str "$1")]

/-- Upstream row for symbol `B` in the ordering example. -/
def rowB6 : Row :=
  [("date", PyVal.str "01/03/2026"), ("close", PyVal.str "$2"),
   ("volume", PyVal.str "20"), ("open", PyVal.str "$2"),
   ("high", PyVal.str "$2"), ("low", PyVal.str "$2")]

/-- An environment where `A` and `B` each succeed with one row. -/
def envC6 : NasdaqEnv := fun url _ =>
  if url = nasdaq_build_url "A" then { ok := true, rows := [rowA6] }
  else { ok := true, rows := [rowB6] }

/-- The cleaned batches of the ordering example. -/
def cleanedC6 : String → List Row := fun s =>
  if s = "A" then
    [[("date", PyVal.str "01/02/2026"), ("close", PyVal.float 1),
      ("volume", PyVal.int 10), ("open", PyVal.float 1),
      ("high", PyVal.float 1), ("low", PyVal.float 1),
      ("symbol", PyVal.str "A")]]
  else
    [[("date", PyVal.str "01/03/2026"), ("close", PyVal.float 2),
      ("volume", PyVal.int 20), ("open", PyVal.float 2),
      ("high", PyVal.float 2), ("low", PyVal.float 2),
      ("symbol", PyVal.str "B")]]

/-- C6 (witness): for `[A, B]` the final table's rows are `B`'s batch
followed by `A`'s batch, each contiguous and in upstream order. -/
theorem C6_witness :
    ∃ df rows',
      build_data_frame envC6 ⟨2026, 10, 12⟩ ["A", "B"] = Except.ok df
      ∧ ((["A", "B"].reverse).flatMap cleanedC6).mapM to_datetime_row
          = Except.ok rows'
      ∧ df.rows = rows'
      ∧ df.columns = unionKeys ((["A", "B"].reverse).flatMap cleanedC6) :=
  C6_row_ordering envC6 ⟨2026, 10, 12⟩ ["A", "B"] cleanedC6
    (by intro s hs; fin_cases hs <;> rfl)
    (by
      intro s hs r hr
      fin_cases hs <;> simp [cleanedC6] at hr <;> subst hr <;> exact ⟨_, rfl⟩)
    ⟨"A", by simp, by simp [cleanedC6]⟩

/-! ## The exchange-rate table -/

lemma dolar_mapM :
    ∀ l : List Row,
      (∀ r ∈ l, ∃ ds, r.lookup "fecha" = some (PyVal.str ds)) →
      ∃ dated, l.mapM to_datetime_fecha = Except.ok dated
        ∧ dated.map (selectCols ["venta"]) = l.map (selectCols ["venta"])
        ∧ dated.length = l.length := by
  intro l
  induction l with
  | nil => intro _; exact ⟨[], rfl, rfl, rfl⟩
  | cons r t ih =>
      intro h
      obtain ⟨ds, hds⟩ := h r (List.mem_cons_self _ _)
      obtain ⟨dated, h1, h2, h3⟩ :=
        ih (fun x hx => h x (List.mem_cons_of_mem _ hx))
      have hr : to_datetime_fecha r
          = Except.ok (dictSet r "fecha" (PyVal.datetime ds)) := by
        unfold to_datetime_fecha
        rw [hds]
        rfl
      refine ⟨dictSet r "fecha" (PyVal.datetime ds) :: dated, ?_, ?_, ?_⟩
      · rw [List.mapM_cons, hr, h1]
        rfl
      · simp only [List.map_cons, h2]
        congr 1
        unfold selectCols
        simp [lookup_dictSet, List.filterMap_cons]
      · simp [h3]

/-- C7: for every rate-category symbol, when the upstream records each
carry a date and a sell price (and possibly more fields), the fetcher
returns a date-indexed table whose only column is the sell price: every
row of the result holds exactly the `venta` cell, all other fields
dropped, with one index entry per upstream record. -/
theorem C7_single_column (env : DolarEnv) (symbol : String)
    (hne : env (dolar_build_url symbol) ≠ [])
    (hrec : ∀ r ∈ env (dolar_build_url symbol),
      (∃ ds, r.lookup "fecha" = some (PyVal.str ds))
      ∧ ∃ v, r.lookup "venta" = some v) :
    ∃ df, dolar_build_data_frame env symbol = Except.ok df
      ∧ df.columns = ["venta"]
      ∧ df.rows = (env (dolar_build_url symbol)).map (selectCols ["venta"])
      ∧ (∀ row ∈ df.rows, row.map Prod.fst = ["venta"])
      ∧ df.index.length = (env (dolar_build_url symbol)).length := by
  obtain ⟨r₀, hr₀⟩ := List.exists_mem_of_ne_nil _ hne
  obtain ⟨ds₀, hds₀⟩ := (hrec r₀ hr₀).1
  obtain ⟨v₀, hv₀⟩ := (hrec r₀ hr₀).2
  have hfc : "fecha" ∈ unionKeys (env (dolar_build_url symbol)) :=
    mem_unionKeys (lookup_mem_keys hds₀) hr₀
  have hvc' : "venta" ∈ unionKeys (env (dolar_build_url symbol)) :=
    mem_unionKeys (lookup_mem_keys hv₀) hr₀
  have hvc : "venta" ∈ (unionKeys (env (dolar_build_url symbol))).erase "fecha" :=
    (List.mem_erase_of_ne (by decide)).mpr hvc'
  obtain ⟨dated, h1, h2, h3⟩ :=
    dolar_mapM (env (dolar_build_url symbol)) (fun r hr => (hrec r hr).1)
  refine ⟨⟨dated.map (fun r => (r.lookup "fecha").getD PyVal.naT), ["venta"],
    dated.map (selectCols ["venta"])⟩, ?_, rfl, ?_, ?_, ?_⟩
  · unfold dolar_build_data_frame
    simp only [if_pos hfc, if_pos hvc, h1, bind, Except.bind]
  · exact h2
  · intro row hrow
    simp only [h2] at hrow
    obtain ⟨r, hr, hrow'⟩ := List.mem_map.mp hrow
    obtain ⟨v, hv⟩ := (hrec r hr).2
    subst hrow'
    unfold selectCols
    simp [hv]
  · simp [h3]

/-- A single upstream exchange-rate record carrying a buy price beside
date and sell price. -/
def dolarRecords : List Row :=
  [[("fecha", PyVal.str "2024-01-02"), ("compra", PyVal.str "800.50"),
    ("venta", PyVal.str "820.50")]]

/-- An environment returning the concrete exchange-rate records. -/
def envDolar : DolarEnv := fun _ => dolarRecords

/-- C7 (witness): for the category `oficial` with a record that also has
a buy price, the result table has the single column `venta` and the buy
price is dropped. -/
theorem C7_witness :
    ∃ df, dolar_build_data_frame envDolar "oficial" = Except.ok df
      ∧ df.columns = ["venta"]
      ∧ df.rows = dolarRecords.map (selectCols ["venta"])
      ∧ (∀ row ∈ df.rows, row.map Prod.fst = ["venta"])
      ∧ df.index.length = dolarRecords.length :=
  C7_single_column envDolar "oficial" (by simp [envDolar, dolarRecords])
    (by
      intro r hr
      simp [envDolar, dolarRecords] at hr
      subst hr
      exact ⟨⟨_, rfl⟩, ⟨_, rfl⟩⟩)
